import Mathlib

/-!
# IoTxChain-ESP8266: codec, address derivation and transaction model

A shallow embedding of `src/lib/IoTxChain-ESP8266/IoTxChain-lib.cpp` and
`IoTxChain-lib.h`.

Conventions of the embedding:

* a `uint8_t` / `uint32_t` / `uint64_t` value is a `Nat`; every store into a
  machine integer of width `w` is written with an explicit `% 2 ^ w`
  (or a mask) exactly where the C++ code truncates;
* `std::vector<uint8_t>` is `List Nat`, `std::vector<T>` is `List T`;
* an Arduino `String` is the list of its characters, a `std::string` the list
  of its bytes;
* a function with reference out-parameters takes their previous contents as
  arguments and returns their final contents next to the return value.
-/

namespace IoTxChain

/-! ## Vectors -/

/-- The effect of `std::vector::resize(n, x)`: keep the first `n` elements,
pad with `x` up to length `n`. -/
def resize (v : List Nat) (n : Nat) (x : Nat) : List Nat :=
  v.take n ++ List.replicate (n - v.length) x

/-! ## Codec -/

/-- The function `encodeU64LE` (IoTxChain-lib.cpp, lines 13-19): `result` starts as
8 zero bytes; for `i = 0..7`, `result[i] = (value >> (i * 8)) & 0xFF`. -/
def encodeU64LE (value : Nat) : List Nat :=
  (List.range 8).foldl
    (fun result i => result.set i ((value >>> (i * 8)) &&& 0xFF))
    (List.replicate 8 0)

/-- The bytes of an ASCII string literal. -/
def asciiBytes (s : String) : List Nat := s.toList.map Char.toNat

/-- The Arduino core constructor `String(unsigned char value, HEX)`: the digits of
`value` in base 16, lower case, without leading zeros (`utoa`). -/
def hexString (value : Nat) : List Char := Nat.toDigits 16 (value % 256)

/-- The function `base58Encode` (lines 265-273): `result` starts empty; for every
`i < len` with `i < 8`, `result += String(data[i], HEX)`. -/
def base58Encode (data : List Nat) (len : Nat) : List Char :=
  (List.range (min len 8)).foldl
    (fun result i => result ++ hexString (data.getD i 0))
    []

/-- The function `base58ToPubkey` (lines 6-11): a vector of 32 zero bytes, whatever
the argument. -/
def base58ToPubkey (_base58Str : List Char) : List Nat :=
  List.replicate 32 0

/-! ## Discriminator -/

/-- The function `IoTxChain::calculateDiscriminator` (lines 275-286):
`discriminator` starts as 8 zero bytes; for every `i < functionName.length()`
with `i < 8`, `discriminator[i] = functionName[i] ^ 0xAA`. -/
def calculateDiscriminator (functionName : List Nat) : List Nat :=
  (List.range (min functionName.length 8)).foldl
    (fun discriminator i => discriminator.set i ((functionName.getD i 0 ^^^ 0xAA) % 256))
    (List.replicate 8 0)

/-! ## Reference hash -/

/-- Rotation of a 32-bit word to the right by `n` bits. -/
def rotr32 (x n : Nat) : Nat := ((x >>> n) ||| (x <<< (32 - n))) % 2 ^ 32

/-- The 64 round constants of SHA-256. -/
def sha256K : List Nat :=
  [
    1116352408, 1899447441, 3049323471, 3921009573, 961987163, 1508970993,
    2453635748, 2870763221, 3624381080, 310598401, 607225278, 1426881987,
    1925078388, 2162078206, 2614888103, 3248222580, 3835390401, 4022224774,
    264347078, 604807628, 770255983, 1249150122, 1555081692, 1996064986,
    2554220882, 2821834349, 2952996808, 3210313671, 3336571891, 3584528711,
    113926993, 338241895, 666307205, 773529912, 1294757372, 1396182291,
    1695183700, 1986661051, 2177026350, 2456956037, 2730485921, 2820302411,
    3259730800, 3345764771, 3516065817, 3600352804, 4094571909, 275423344,
    430227734, 506948616, 659060556, 883997877, 958139571, 1322822218,
    1537002063, 1747873779, 1955562222, 2024104815, 2227730452, 2361852424,
    2428436474, 2756734187, 3204031479, 3329325298
  ]

/-- The initial hash value of SHA-256. -/
def sha256H0 : List Nat :=
  [
    1779033703, 3144134277, 1013904242, 2773480762,
    1359893119, 2600822924, 528734635, 1541459225
  ]

/-- The `w` big-endian bytes of `x`. -/
def beBytes : Nat → Nat → List Nat
  | 0, _ => []
  | w + 1, x => (x / 256 ^ w) % 256 :: beBytes w x

/-- The number a big-endian byte list writes. -/
def beWord (bs : List Nat) : Nat := bs.foldl (fun acc b => acc * 256 + b) 0

/-- Padding: the byte `0x80`, zero bytes up to 56 modulo 64, then the bit length of
the message on 8 big-endian bytes. -/
def sha256Pad (msg : List Nat) : List Nat :=
  msg ++ 0x80 :: List.replicate ((55 + 64 - msg.length % 64) % 64) 0 ++ beBytes 8 (8 * msg.length)

/-- The first `k` consecutive pieces of `n` elements. -/
def chunks (n : Nat) : Nat → List Nat → List (List Nat)
  | 0, _ => []
  | k + 1, bs => bs.take n :: chunks n k (bs.drop n)

/-- Extension of the message schedule by `k` words; the list holds the most recent
word first. -/
def sha256Extend : Nat → List Nat → List Nat
  | 0, ws => ws
  | k + 1, ws =>
    let w2 := ws.getD 1 0
    let w7 := ws.getD 6 0
    let w15 := ws.getD 14 0
    let w16 := ws.getD 15 0
    let s0 := rotr32 w15 7 ^^^ rotr32 w15 18 ^^^ (w15 >>> 3)
    let s1 := rotr32 w2 17 ^^^ rotr32 w2 19 ^^^ (w2 >>> 10)
    sha256Extend k (((w16 + s0 + w7 + s1) % 2 ^ 32) :: ws)

/-- One round of the compression function on the working variables `a..h`, with
round constant `kw.1` and schedule word `kw.2`. -/
def sha256Round (st : List Nat) (kw : Nat × Nat) : List Nat :=
  match st with
  | [a, b, c, d, e, f, g, h] =>
    let S1 := rotr32 e 6 ^^^ rotr32 e 11 ^^^ rotr32 e 25
    let ch := (e &&& f) ^^^ ((e ^^^ 0xffffffff) &&& g)
    let t1 := (h + S1 + ch + kw.1 + kw.2) % 2 ^ 32
    let S0 := rotr32 a 2 ^^^ rotr32 a 13 ^^^ rotr32 a 22
    let maj := (a &&& b) ^^^ (a &&& c) ^^^ (b &&& c)
    let t2 := (S0 + maj) % 2 ^ 32
    [(t1 + t2) % 2 ^ 32, a, b, c, (d + t1) % 2 ^ 32, e, f, g]
  | _ => st

/-- The compression of one 64-byte block into the hash value `hs`. -/
def sha256Block (hs : List Nat) (block : List Nat) : List Nat :=
  let w0 := (chunks 4 16 block).map beWord
  let ws := (sha256Extend 48 w0.reverse).reverse
  let st := (sha256K.zip ws).foldl sha256Round hs
  List.zipWith (fun x y => (x + y) % 2 ^ 32) hs st

/-- Reference definition: the SHA-256 digest (FIPS 180-4) of a byte string, 32 bytes.
The repository has no implementation of it; it is the hash that the comment in
`calculateDiscriminator` and the discriminator contract name. -/
def sha256 (msg : List Nat) : List Nat :=
  let p := sha256Pad msg
  let hs := (chunks 64 (p.length / 64) p).foldl sha256Block sha256H0
  hs.flatMap (beBytes 4)

/-! ## Address derivation -/

/-- The first loop of `findProgramAddress` (lines 250-252):
`outPDA[i] = (i + programId.size()) % 256` for `i = 0..31`. -/
def fillPDA (programIdSize : Nat) (outPDA : List Nat) : List Nat :=
  (List.range 32).foldl
    (fun pda i => pda.set i ((i + programIdSize) % 256))
    outPDA

/-- The contents of `outPDA` after the first loop, written in closed form. -/
def basePDA (programIdSize : Nat) : List Nat :=
  (List.range 32).map fun i => (i + programIdSize) % 256

/-- The inner loop of `findProgramAddress` (lines 256-258) for one seed:
`outPDA[i] ^= seed[i]` for every `i < seed.size()` with `i < 32`. -/
def mixSeed (outPDA : List Nat) (seed : List Nat) : List Nat :=
  (List.range (min seed.length 32)).foldl
    (fun pda i => pda.set i ((pda.getD i 0 ^^^ seed.getD i 0) % 256))
    outPDA

/-- The result of a call of `findProgramAddress`: the returned `bool` and the
final contents of the two out-parameters. -/
structure PDAResult where
  ok : Bool
  outPDA : List Nat
  outBump : Nat
  deriving DecidableEq, Repr

/-- The function `IoTxChain::findProgramAddress` (lines 244-263). `outPDA0` and
`outBump0` are what the out-parameters held before the call. -/
def findProgramAddress (seeds : List (List Nat)) (programId : List Nat)
    (outPDA0 : List Nat) (_outBump0 : Nat) : PDAResult :=
  let outPDA := resize outPDA0 32 0
  let outPDA := fillPDA programId.length outPDA
  let outPDA := seeds.foldl mixSeed outPDA
  { ok := true, outPDA := outPDA, outBump := 255 }

/-! ## Transaction model (IoTxChain-lib.h) -/

/-- The struct `Pubkey`. -/
structure Pubkey where
  data : List Nat
  deriving DecidableEq, Repr

/-- The struct `Keypair`. -/
structure Keypair where
  publicKey : List Nat
  privateKey : List Nat
  deriving DecidableEq, Repr

/-- The struct `AccountMeta`. -/
structure AccountMeta where
  pubkey : Pubkey
  isSigner : Bool
  isWritable : Bool
  deriving DecidableEq, Repr

/-- The struct `Instruction`. -/
structure Instruction where
  programId : Pubkey
  accounts : List AccountMeta
  data : List Nat
  deriving DecidableEq, Repr

/-- The data members of the struct `Transaction`. -/
structure Transaction where
  fee_payer : Pubkey
  recent_blockhash : List Char
  instructions : List Instruction
  signature : List Nat
  deriving DecidableEq, Repr

/-- The member `Transaction::add` (lines 82-84): `instructions.push_back(ix)`. -/
def Transaction.add (t : Transaction) (ix : Instruction) : Transaction :=
  { t with instructions := t.instructions ++ [ix] }

/-- The member `Transaction::sign` (lines 86-89): `signature.resize(64, 0x00)`;
the keypair list is not read. -/
def Transaction.sign (t : Transaction) (_signers : List Keypair) : Transaction :=
  { t with signature := resize t.signature 64 0x00 }

/-- The member `Transaction::serializeMessage` (lines 97-100): an empty vector. -/
def Transaction.serializeMessage (_t : Transaction) : List Nat :=
  []

/-! ## Confirmation polling -/

/-- The largest value of `uint32_t`. -/
def UINT32_MAX : Nat := 2 ^ 32 - 1

/-- What one pass through the body of the polling loop of `confirmTransaction`
meets: `http.begin` fails; the POST does not answer 200; the answer is not
JSON; the status entry is absent or null; the status entry is present. -/
inductive Poll where
  | beginFailed
  | httpError
  | jsonError
  | pending
  | confirmed
  deriving DecidableEq, Repr

/-- The loop of `IoTxChain::confirmTransaction` (lines 103-146), run for at most
`fuel` passes. `rpc k` is what pass number `k` meets, `waited` the 32-bit
counter, `polls` the number of passes made so far. The result is `none` when
the loop is still running after `fuel` passes, else the returned `bool` and the
number of passes made. -/
def confirmLoop (rpc : Nat → Poll) (maxWaitMs : Nat) :
    Nat → Nat → Nat → Option (Bool × Nat)
  | 0, _, _ => none
  | fuel + 1, waited, polls =>
    if waited ≤ maxWaitMs then
      match rpc polls with
      | Poll.beginFailed => some (false, polls + 1)
      | Poll.confirmed => some (true, polls + 1)
      | Poll.httpError => confirmLoop rpc maxWaitMs fuel ((waited + 500) % 2 ^ 32) (polls + 1)
      | Poll.jsonError => confirmLoop rpc maxWaitMs fuel ((waited + 500) % 2 ^ 32) (polls + 1)
      | Poll.pending => confirmLoop rpc maxWaitMs fuel ((waited + 500) % 2 ^ 32) (polls + 1)
    else
      some (false, polls)

/-- The function `IoTxChain::confirmTransaction` (lines 99-149): `waited = 0`, then the
loop, then `return false`. -/
def confirmTransaction (rpc : Nat → Poll) (maxWaitMs : Nat) (fuel : Nat) :
    Option (Bool × Nat) :=
  confirmLoop rpc maxWaitMs fuel 0 0

/-! ## Sample inputs -/

/-- A 32-byte public key, every byte `0x01`. -/
def payerKey : List Nat := List.replicate 32 1

/-- A second 32-byte public key, every byte `0x02`. -/
def recipientKey : List Nat := List.replicate 32 2

/-- The system program id: 32 zero bytes. -/
def systemProgramId : List Nat := List.replicate 32 0

/-- A transfer of 1000 lamports from `payerKey` (signer, writable) to
`recipientKey` (writable). -/
def transferIx : Instruction :=
  { programId := ⟨systemProgramId⟩
    accounts := [⟨⟨payerKey⟩, true, true⟩, ⟨⟨recipientKey⟩, false, true⟩]
    data := [2, 0, 0, 0] ++ encodeU64LE 1000 }

/-- A freshly built transaction (no signature yet) whose fee payer `payerKey` signs
its one instruction. -/
def transferTx : Transaction :=
  { fee_payer := ⟨payerKey⟩
    recent_blockhash := []
    instructions := [transferIx]
    signature := [] }

/-! ## Little-endian encoding -/

theorem and_255 (x : Nat) : x &&& 0xFF = x % 256 :=
  Nat.and_pow_two_sub_one_eq_mod x 8

theorem encodeU64LE_eq (value : Nat) :
    encodeU64LE value =
      [value % 256, value / 256 % 256, value / 256 ^ 2 % 256, value / 256 ^ 3 % 256,
       value / 256 ^ 4 % 256, value / 256 ^ 5 % 256, value / 256 ^ 6 % 256,
       value / 256 ^ 7 % 256] := by
  simp [encodeU64LE, List.range_succ, and_255, Nat.shiftRight_eq_div_pow]

/-- C3: for every unsigned 64-bit `v`, `encodeU64LE v` has exactly 8 bytes, byte
`i` is `(v / 256 ^ i) % 256`, and the sum of `byte[i] * 256 ^ i` is `v`. -/
theorem encodeU64LE_little_endian (v : Nat) (hv : v < 2 ^ 64) :
    (encodeU64LE v).length = 8 ∧
    (∀ i, i < 8 → (encodeU64LE v).getD i 0 = v / 256 ^ i % 256) ∧
    ((List.range 8).map fun i => (encodeU64LE v).getD i 0 * 256 ^ i).sum = v := by
  rw [encodeU64LE_eq]
  refine ⟨rfl, ?_, ?_⟩
  · intro i hi
    interval_cases i <;> simp
  · simp [List.range_succ]
    omega

theorem encodeU64LE_little_endian_witness :
    (0x0102030405060708 : Nat) < 2 ^ 64 ∧
    (encodeU64LE 0x0102030405060708).length = 8 ∧
    (∀ i, i < 8 →
      (encodeU64LE 0x0102030405060708).getD i 0 = 0x0102030405060708 / 256 ^ i % 256) ∧
    ((List.range 8).map fun i =>
      (encodeU64LE 0x0102030405060708).getD i 0 * 256 ^ i).sum = 0x0102030405060708 :=
  ⟨by norm_num, encodeU64LE_little_endian 0x0102030405060708 (by norm_num)⟩

/-! ## Address derivation -/

theorem resize_length (v : List Nat) (n x : Nat) : (resize v n x).length = n := by
  simp [resize]
  omega

/-- A loop that stores `f i` at every index `i < k` of a vector long enough
leaves `f 0, ..., f (k - 1)` followed by the untouched tail. -/
theorem foldl_set_range (f : Nat → Nat) (l : List Nat) (k : Nat) (hk : k ≤ l.length) :
    (List.range k).foldl (fun r i => r.set i (f i)) l = (List.range k).map f ++ l.drop k := by
  induction k with
  | zero => simp
  | succ k ih =>
    rw [List.range_succ, List.foldl_append, ih (by omega)]
    simp only [List.foldl_cons, List.foldl_nil, List.map_append, List.map_cons, List.map_nil]
    have hlen : ((List.range k).map f).length = k := by simp
    have hd : l.drop k = l[k] :: l.drop (k + 1) := List.drop_eq_getElem_cons (by omega)
    rw [List.set_append_right _ _ (by omega), hlen, Nat.sub_self, hd, List.set_cons_zero,
      List.append_assoc]
    rfl

theorem fillPDA_eq (n : Nat) (l : List Nat) (hl : l.length = 32) :
    fillPDA n l = basePDA n := by
  unfold fillPDA basePDA
  rw [foldl_set_range (fun i => (i + n) % 256) l 32 (by omega)]
  rw [List.drop_of_length_le (by omega)]
  simp

theorem findProgramAddress_eq (seeds : List (List Nat)) (programId outPDA0 : List Nat)
    (outBump0 : Nat) :
    findProgramAddress seeds programId outPDA0 outBump0 =
      { ok := true, outPDA := seeds.foldl mixSeed (basePDA programId.length), outBump := 255 } := by
  simp only [findProgramAddress]
  rw [fillPDA_eq _ _ (resize_length _ _ _)]

theorem foldl_set_length (g : List Nat → Nat → Nat) (is : List Nat) (l : List Nat) :
    (is.foldl (fun r i => r.set i (g r i)) l).length = l.length := by
  induction is generalizing l with
  | nil => rfl
  | cons i is ih => simp [ih]

theorem mixSeed_length (pda seed : List Nat) : (mixSeed pda seed).length = pda.length :=
  foldl_set_length (fun r i => (r.getD i 0 ^^^ seed.getD i 0) % 256) _ pda

theorem foldl_mixSeed_length (seeds : List (List Nat)) (pda : List Nat) :
    (seeds.foldl mixSeed pda).length = pda.length := by
  induction seeds generalizing pda with
  | nil => rfl
  | cons s seeds ih => simp [ih, mixSeed_length]

theorem mixSeed_take (pda seed : List Nat) : mixSeed pda (seed.take 32) = mixSeed pda seed := by
  unfold mixSeed
  have hmin : min (seed.take 32).length 32 = min seed.length 32 := by
    simp only [List.length_take]
    omega
  rw [hmin]
  apply List.foldl_ext
  intro r i hi
  have hi32 : i < 32 := by
    have := List.mem_range.mp hi
    omega
  simp [List.getD_eq_getElem?_getD, List.getElem?_take, hi32]

theorem foldl_mixSeed_take (seeds : List (List Nat)) (pda : List Nat) :
    (seeds.map (List.take 32)).foldl mixSeed pda = seeds.foldl mixSeed pda := by
  induction seeds generalizing pda with
  | nil => rfl
  | cons s seeds ih => simp [ih, mixSeed_take]

/-- C5 (as stated, refuted): a seed list with a 33-byte seed and a list of 17 seeds
are both accepted. -/
theorem findProgramAddress_accepts_oversized :
    32 < (List.replicate 33 7).length ∧
    (findProgramAddress [List.replicate 33 7] systemProgramId [] 0).ok = true ∧
    16 < (List.replicate 17 [1]).length ∧
    (findProgramAddress (List.replicate 17 [1]) systemProgramId [] 0).ok = true := by
  refine ⟨by decide, ?_, by decide, ?_⟩ <;> rw [findProgramAddress_eq]

/-- C5 (amended): `findProgramAddress` returns `true` for every seed list, the empty
one included, and reads at most the first 32 bytes of each seed: cutting every
seed to its first 32 bytes changes nothing of the result. -/
theorem findProgramAddress_accepts_all (seeds : List (List Nat)) (programId outPDA0 : List Nat)
    (outBump0 : Nat) :
    (findProgramAddress seeds programId outPDA0 outBump0).ok = true ∧
    (findProgramAddress [] programId outPDA0 outBump0).ok = true ∧
    findProgramAddress (seeds.map (List.take 32)) programId outPDA0 outBump0 =
      findProgramAddress seeds programId outPDA0 outBump0 := by
  refine ⟨?_, ?_, ?_⟩
  · rw [findProgramAddress_eq]
  · rw [findProgramAddress_eq]
  · rw [findProgramAddress_eq, findProgramAddress_eq, foldl_mixSeed_take]

/-- C6: two calls of `findProgramAddress` with the same seeds and program id give the
same return value, address and bump, whatever `outPDA` and `outBump` held before
each call. -/
theorem findProgramAddress_deterministic (seeds : List (List Nat)) (programId : List Nat)
    (outPDA1 outPDA2 : List Nat) (outBump1 outBump2 : Nat) :
    findProgramAddress seeds programId outPDA1 outBump1 =
      findProgramAddress seeds programId outPDA2 outBump2 := by
  rw [findProgramAddress_eq, findProgramAddress_eq]

/-- C10: for program ids `p` and `q` of equal length, `findProgramAddress` gives the
same 32-byte address and the same bump 255 for every seed list. -/
theorem findProgramAddress_programId_length_only (seeds : List (List Nat)) (p q : List Nat)
    (outPDA1 outPDA2 : List Nat) (outBump1 outBump2 : Nat) (h : p.length = q.length) :
    (findProgramAddress seeds p outPDA1 outBump1).outPDA =
      (findProgramAddress seeds q outPDA2 outBump2).outPDA ∧
    (findProgramAddress seeds p outPDA1 outBump1).outPDA.length = 32 ∧
    (findProgramAddress seeds p outPDA1 outBump1).outBump = 255 ∧
    (findProgramAddress seeds q outPDA2 outBump2).outBump = 255 := by
  rw [findProgramAddress_eq, findProgramAddress_eq, h]
  refine ⟨rfl, ?_, rfl, rfl⟩
  simp [foldl_mixSeed_length, basePDA]

theorem findProgramAddress_programId_length_only_witness :
    payerKey ≠ recipientKey ∧ payerKey.length = recipientKey.length ∧
    (findProgramAddress [asciiBytes "seed"] payerKey [] 0).outPDA =
      (findProgramAddress [asciiBytes "seed"] recipientKey [9, 9] 7).outPDA ∧
    (findProgramAddress [asciiBytes "seed"] payerKey [] 0).outPDA.length = 32 ∧
    (findProgramAddress [asciiBytes "seed"] payerKey [] 0).outBump = 255 ∧
    (findProgramAddress [asciiBytes "seed"] recipientKey [9, 9] 7).outBump = 255 :=
  ⟨by decide, by decide,
    findProgramAddress_programId_length_only [asciiBytes "seed"] payerKey recipientKey
      [] [9, 9] 0 7 (by decide)⟩

/-! ## Base58 -/

theorem base58ToPubkey_const (str : List Char) : base58ToPubkey str = List.replicate 32 0 :=
  rfl

/-- The round trip through `base58Encode` and `base58ToPubkey` gives back `b` only
for the key of 32 zero bytes. -/
theorem base58_roundtrip_iff (b : List Nat) (len : Nat) :
    base58ToPubkey (base58Encode b len) = b ↔ b = List.replicate 32 0 := by
  rw [base58ToPubkey_const]
  exact eq_comm

/-- C1 (the code at a failing input): for the 32-byte key with every byte `0x01`,
`base58Encode` gives the eight characters `11111111` (the hexadecimal digits of
the first eight bytes) and `base58ToPubkey` of that string is 32 zero bytes, not
the key. -/
theorem base58_roundtrip_fails :
    base58Encode payerKey 32 = "11111111".toList ∧
    base58ToPubkey (base58Encode payerKey 32) = List.replicate 32 0 ∧
    base58ToPubkey (base58Encode payerKey 32) ≠ payerKey := by
  refine ⟨by decide, rfl, by decide⟩

/-! ## Discriminator -/

set_option maxRecDepth 100000

/-- The reference hash on the test vector `"abc"` of FIPS 180-4. -/
theorem sha256_abc :
    sha256 (asciiBytes "abc") =
      [0xba, 0x78, 0x16, 0xbf, 0x8f, 0x01, 0xcf, 0xea, 0x41, 0x41, 0x40, 0xde, 0x5d, 0xae,
       0x22, 0x23, 0xb0, 0x03, 0x61, 0xa3, 0x96, 0x17, 0x7a, 0x9c, 0xb4, 0x10, 0xff, 0x61,
       0xf2, 0x00, 0x15, 0xad] := by
  decide

/-- The reference hash on the two-block test vector of FIPS 180-4. -/
theorem sha256_two_blocks :
    sha256 (asciiBytes "abcdbcdecdefdefgefghfghighijhijkijkljklmklmnlmnomnopnopq") =
      [0x24, 0x8d, 0x6a, 0x61, 0xd2, 0x06, 0x38, 0xb8, 0xe5, 0xc0, 0x26, 0x93, 0x0c, 0x3e,
       0x60, 0x39, 0xa3, 0x3c, 0xe4, 0x59, 0x64, 0xff, 0x21, 0x67, 0xf6, 0xec, 0xed, 0xd4,
       0x19, 0xdb, 0x06, 0xc1] := by
  decide

theorem calculateDiscriminator_length (functionName : List Nat) :
    (calculateDiscriminator functionName).length = 8 := by
  unfold calculateDiscriminator
  rw [foldl_set_length (fun _ i => (functionName.getD i 0 ^^^ 0xAA) % 256)]
  simp

/-- C2 (the code at a failing input): `calculateDiscriminator "initialize"` is the
first eight characters XOR `0xAA`, while the first 8 bytes of
`sha256 "global:initialize"` are `af af 6d 1f 0d 98 9b ed`. -/
theorem calculateDiscriminator_initialize_not_sha256 :
    calculateDiscriminator (asciiBytes "initialize") =
      [0xC3, 0xC4, 0xC3, 0xDE, 0xC3, 0xCB, 0xC6, 0xC3] ∧
    (sha256 (asciiBytes "global:" ++ asciiBytes "initialize")).take 8 =
      [0xAF, 0xAF, 0x6D, 0x1F, 0x0D, 0x98, 0x9B, 0xED] ∧
    calculateDiscriminator (asciiBytes "initialize") ≠
      (sha256 (asciiBytes "global:" ++ asciiBytes "initialize")).take 8 := by
  refine ⟨by decide, by decide, by decide⟩

/-! ## Transaction -/

theorem sign_ignores_signers (t : Transaction) (signers1 signers2 : List Keypair) :
    t.sign signers1 = t.sign signers2 :=
  rfl

/-- C4 (the code at a failing input): signing `transferTx`, whose fee payer is a
signer, with an empty keypair list leaves a signature of 64 zero bytes in the
transaction. -/
theorem sign_without_keypair_zero_signature :
    (transferTx.sign []).signature = List.replicate 64 0 := by
  decide

/-- C7 (the code at a failing input): `serializeMessage` of `transferTx` is empty, so
it has no three-byte header. -/
theorem serializeMessage_no_header :
    transferTx.serializeMessage = [] ∧ ¬ 3 ≤ transferTx.serializeMessage.length := by
  decide

/-- C8 (as stated, refuted): after `sign` then `add` on `transferTx` the instruction
list has changed and the signature stored by `sign` is still there. -/
theorem add_after_sign_example :
    ((transferTx.sign []).add transferIx).instructions ≠ (transferTx.sign []).instructions ∧
    ((transferTx.sign []).add transferIx).signature = (transferTx.sign []).signature ∧
    ((transferTx.sign []).add transferIx).signature = List.replicate 64 0 := by
  decide

/-- C8 (amended): after `t.sign(keys)` followed by `t.add(ix)` the instruction list is
the previous one with `ix` appended, and the signature is the 64-byte signature
stored by `sign`, unchanged. -/
theorem add_after_sign_keeps_signature (t : Transaction) (keys : List Keypair)
    (ix : Instruction) :
    ((t.sign keys).add ix).instructions = t.instructions ++ [ix] ∧
    ((t.sign keys).add ix).signature = (t.sign keys).signature ∧
    ((t.sign keys).add ix).signature.length = 64 := by
  refine ⟨rfl, rfl, ?_⟩
  show (resize t.signature 64 0).length = 64
  exact resize_length _ _ _

/-! ## Confirmation polling -/

theorem confirmLoop_pending_wraps (fuel waited polls : Nat) (hw : waited ≤ UINT32_MAX) :
    confirmLoop (fun _ => Poll.pending) UINT32_MAX fuel waited polls = none := by
  induction fuel generalizing waited polls with
  | zero => rfl
  | succ fuel ih =>
    simp only [confirmLoop, if_pos hw]
    apply ih
    have : (waited + 500) % 2 ^ 32 < 2 ^ 32 := Nat.mod_lt _ (by norm_num)
    simp only [UINT32_MAX]
    omega

/-- C9 (the code at a failing input): with `maxWaitMs = 4294967295` and every poll
answering "not confirmed", the loop is still running after any number of
passes: the 32-bit counter `waited` wraps around and never exceeds the budget. -/
theorem confirmTransaction_max_budget_never_returns (fuel : Nat) :
    confirmTransaction (fun _ => Poll.pending) 4294967295 fuel = none :=
  confirmLoop_pending_wraps fuel 0 0 (by decide)

/-- A poll that neither fails to connect nor reports a confirmed status. -/
theorem confirmLoop_step (rpc : Nat → Poll) (maxWaitMs fuel waited polls : Nat)
    (hw : waited ≤ maxWaitMs) (h1 : rpc polls ≠ Poll.beginFailed)
    (h2 : rpc polls ≠ Poll.confirmed) :
    confirmLoop rpc maxWaitMs (fuel + 1) waited polls =
      confirmLoop rpc maxWaitMs fuel ((waited + 500) % 2 ^ 32) (polls + 1) := by
  simp only [confirmLoop, if_pos hw]
  cases h : rpc polls <;> simp_all

theorem confirmLoop_bounded (rpc : Nat → Poll) (maxWaitMs : Nat)
    (hmax : maxWaitMs < 4294967000)
    (hrpc : ∀ k, rpc k ≠ Poll.beginFailed ∧ rpc k ≠ Poll.confirmed)
    (n j fuel : Nat) (hj : j + n = maxWaitMs / 500 + 1) (hfuel : n < fuel) :
    confirmLoop rpc maxWaitMs fuel (500 * j) j = some (false, maxWaitMs / 500 + 1) := by
  induction n generalizing j fuel with
  | zero =>
    obtain ⟨fuel, rfl⟩ : ∃ f, fuel = f + 1 := ⟨fuel - 1, by omega⟩
    have hgt : ¬ 500 * j ≤ maxWaitMs := by omega
    simp only [confirmLoop, if_neg hgt]
    rw [← hj]
    rfl
  | succ n ih =>
    obtain ⟨fuel, rfl⟩ : ∃ f, fuel = f + 1 := ⟨fuel - 1, by omega⟩
    have hle : 500 * j ≤ maxWaitMs := by omega
    rw [confirmLoop_step rpc maxWaitMs fuel (500 * j) j hle (hrpc j).1 (hrpc j).2]
    have hmod : (500 * j + 500) % 2 ^ 32 = 500 * (j + 1) := by
      rw [Nat.mod_eq_of_lt (by omega)]
      ring
    rw [hmod]
    exact ih (j + 1) fuel (by omega) (by omega)

/-- Below the wrap-around threshold the polling bound holds: for
`maxWaitMs < 4294967000`, when every poll connects and none reports a confirmed
status, `confirmTransaction` returns `false` after exactly
`maxWaitMs / 500 + 1` polls. -/
theorem confirmTransaction_bounded (rpc : Nat → Poll) (maxWaitMs : Nat)
    (hmax : maxWaitMs < 4294967000)
    (hrpc : ∀ k, rpc k ≠ Poll.beginFailed ∧ rpc k ≠ Poll.confirmed) :
    confirmTransaction rpc maxWaitMs (maxWaitMs / 500 + 2) =
      some (false, maxWaitMs / 500 + 1) :=
  confirmLoop_bounded rpc maxWaitMs hmax hrpc (maxWaitMs / 500 + 1) 0 _ (by omega) (by omega)

theorem confirmTransaction_bounded_witness :
    confirmTransaction (fun k => if k % 2 = 0 then Poll.httpError else Poll.pending) 5000
      (5000 / 500 + 2) = some (false, 5000 / 500 + 1) :=
  confirmTransaction_bounded _ 5000 (by norm_num) (by
    intro k
    by_cases h : k % 2 = 0 <;> simp [h])

end IoTxChain
